import Mathlib

/-!
Verification of the sea-level monitoring core:
shallow embedding of `backend/shared/southern_baseline_rules.py`,
`backend/shared/historical_baseline.py`, `backend/shared/kalman_filter.py`,
`backend/shared/regime_switching.py` and the prediction endpoint
`backend/lambdas/get_predictions/main.py`.

Sensor values and timestamps are modelled as rationals (Python floats read
exactly); timestamps are in hours.  Pandas rows keyed by station become
functions `Station → Option ℚ` (absent / NaN cells are `none`), and the
per-station result dict of `process_row_with_validation` becomes a
partial map `Station → Option StationResult`.
-/

/-- The six gauges known to the rules engine (`ALL_STATIONS` in
`southern_baseline_rules.py`). -/
inductive Station : Type
  | Yafo
  | Ashdod
  | Ashkelon
  | Haifa
  | Acre
  | Eilat
deriving DecidableEq

/-- `SouthernBaselineRules.SOUTHERN_STATIONS`. -/
def SOUTHERN_STATIONS : List Station := [.Yafo, .Ashdod, .Ashkelon]

/-- `SouthernBaselineRules.NORTHERN_STATIONS`. -/
def NORTHERN_STATIONS : List Station := [.Haifa, .Acre]

/-- `SouthernBaselineRules.ALL_STATIONS`. -/
def ALL_STATIONS : List Station := SOUTHERN_STATIONS ++ NORTHERN_STATIONS ++ [.Eilat]

/-- `SouthernBaselineRules.STATION_OFFSETS` (meters). -/
def STATION_OFFSETS : Station → ℚ
  | .Yafo => 0
  | .Ashdod => 0
  | .Ashkelon => 0
  | .Haifa => 4/100
  | .Acre => 8/100
  | .Eilat => 28/100

/-- `SouthernBaselineRules.SOUTHERN_VALIDATION_THRESHOLD` (5 cm). -/
def SOUTHERN_VALIDATION_THRESHOLD : ℚ := 5/100

/-- `SouthernBaselineRules.get_tolerance`: southern 3 cm, Eilat 6 cm,
northern 5 cm (the `TOLERANCE` table). -/
def get_tolerance (s : Station) : ℚ :=
  if s ∈ SOUTHERN_STATIONS then 3/100
  else if s = .Eilat then 6/100
  else 5/100

/-- `SouthernBaselineRules.get_expected_value`: baseline plus the fixed
station offset (every `Station` is in `STATION_OFFSETS`). -/
def get_expected_value (s : Station) (baseline : ℚ) : ℚ :=
  baseline + STATION_OFFSETS s

/-- A pivot-table row: per-station reading at one timestamp. -/
def Row : Type := Station → Option ℚ

/-- Step 1 of `validate_southern_stations`: collect the available southern
readings, skipping an explicitly excluded station (the `station_data`
dict, built in `SOUTHERN_STATIONS` order). -/
def collectSouthern (row : Row) (exclude : Option Station) : List (Station × ℚ) :=
  (SOUTHERN_STATIONS.filter (fun s => decide (exclude ≠ some s))).filterMap
    (fun s => (row s).map (fun v => (s, v)))

/-- Agreement count of candidate `p` against the other candidates in `sd`:
how many entries with a different station name lie within
`SOUTHERN_VALIDATION_THRESHOLD` of `p`'s value. -/
def agreementCount (sd : List (Station × ℚ)) (p : Station × ℚ) : ℕ :=
  (sd.filter (fun q =>
    decide (q.1 ≠ p.1 ∧ |p.2 - q.2| ≤ SOUTHERN_VALIDATION_THRESHOLD))).length

/-- Step 2 of `validate_southern_stations`: with 0 or 1 candidates return
them as-is; otherwise keep a candidate iff its agreement count reaches
`required_agreements = max 1 (n / 2)`. -/
def validateCandidates (sd : List (Station × ℚ)) : List Station × List ℚ :=
  if sd.length ≤ 1 then (sd.map Prod.fst, sd.map Prod.snd)
  else
    let valid := sd.filter (fun p => decide (max 1 (sd.length / 2) ≤ agreementCount sd p))
    (valid.map Prod.fst, valid.map Prod.snd)

/-- `SouthernBaselineRules.validate_southern_stations`. -/
def validate_southern_stations (row : Row) (exclude : Option Station) :
    List Station × List ℚ :=
  validateCandidates (collectSouthern row exclude)

/-- `np.median` of a list of rationals: middle of the sorted list, averaging
the two central entries for even length. -/
def npMedian (l : List ℚ) : ℚ :=
  let s := l.insertionSort (· ≤ ·)
  let n := l.length
  if n % 2 = 1 then s.getD (n / 2) 0
  else (s.getD (n / 2 - 1) 0 + s.getD (n / 2) 0) / 2

/-- `np.mean` of a list of rationals. -/
def listMean (l : List ℚ) : ℚ := l.sum / (l.length : ℚ)

/-- Step 2 of `calculate_southern_baseline`: no valid values → absent;
3 or more → median; 1 or 2 → mean. -/
def baselineFromValidation (outcome : List Station × List ℚ) :
    Option ℚ × ℕ × List Station :=
  let (stations, values) := outcome
  if values.isEmpty then (none, 0, [])
  else if 3 ≤ values.length then (some (npMedian values), values.length, stations)
  else (some (listMean values), values.length, stations)

/-- `SouthernBaselineRules.calculate_southern_baseline`. -/
def calculate_southern_baseline (row : Row) (exclude : Option Station) :
    Option ℚ × ℕ × List Station :=
  baselineFromValidation (validate_southern_stations row exclude)

/-- `SouthernBaselineRules.detect_outlier` (readings present, so the NaN
guard of the Python code never fires): returns `(is_outlier, deviation)`
with `is_outlier = deviation > tolerance`. -/
def detect_outlier (s : Station) (actual expected : ℚ) : Bool × ℚ :=
  let deviation := |actual - expected|
  (decide (get_tolerance s < deviation), deviation)

/-- The per-station entry of the dict built by
`process_row_with_validation` (an OutlierRecord of the spec). -/
structure StationResult where
  actual : ℚ
  expected : ℚ
  baseline : ℚ
  baseline_sources : ℕ
  baseline_stations : List Station
  deviation : ℚ
  is_outlier : Bool
  tolerance : ℚ
  excluded_from_baseline : Bool
deriving DecidableEq

/-- `excluded_southern_stations` of `process_row_with_validation`: southern
stations present in the row but rejected by cross-validation. -/
def excludedSouthern (row : Row) : List Station :=
  SOUTHERN_STATIONS.filter (fun s =>
    (row s).isSome && decide (s ∉ (validate_southern_stations row none).1))

/-- `SouthernBaselineRules.process_row_with_validation`, as the partial map
station ↦ result entry.  A `none` baseline yields the empty dict; a station
absent from the row gets no entry; an excluded southern station is forced
to be an outlier, every other station goes through `detect_outlier`. -/
def process_row_with_validation (row : Row) (s : Station) : Option StationResult :=
  match calculate_southern_baseline row none with
  | (none, _, _) => none
  | (some baseline, num_sources, source_stations) =>
    if s ∈ ALL_STATIONS then
      match row s with
      | none => none
      | some actual =>
        let expected := get_expected_value s baseline
        if s ∈ excludedSouthern row then
          some ⟨actual, expected, baseline, num_sources, source_stations,
                |actual - expected|, true, get_tolerance s, true⟩
        else
          let d := detect_outlier s actual expected
          some ⟨actual, expected, baseline, num_sources, source_stations,
                d.2, d.1, get_tolerance s, false⟩
    else none

/-- One long-format record (`Tab_DateTime`, `Station`, `Tab_Value_mDepthC1`);
`time` is in hours. -/
structure Reading where
  station : Station
  time : ℚ
  value : ℚ
deriving DecidableEq

/-- A result row of `detect_asynchronous_outliers` (no tolerance column is
emitted on this path; the comparison threshold is
`SOUTHERN_VALIDATION_THRESHOLD`). -/
structure AsyncRecord where
  time : ℚ
  value : ℚ
  expected : ℚ
  baseline : ℚ
  deviation : ℚ
  is_outlier : Bool
  excluded_from_baseline : Bool
deriving DecidableEq

/-- `SouthernBaselineRules.detect_asynchronous_outliers`: for each Ashkelon
reading, gather Yafo/Ashdod readings within ±1 hour; with at least 2 nearby
rows and both stations represented, the local baseline is the mean of the
two per-station means and the reading is flagged like a southern reading. -/
def detect_asynchronous_outliers (df : List Reading) : List AsyncRecord :=
  (df.filter (fun r => decide (r.station = .Ashkelon))).filterMap (fun a =>
    let nearby := df.filter (fun r =>
      decide (a.time - 1 ≤ r.time ∧ r.time ≤ a.time + 1
        ∧ (r.station = .Yafo ∨ r.station = .Ashdod)))
    if 2 ≤ nearby.length then
      let baseline_values := [Station.Yafo, Station.Ashdod].filterMap (fun s =>
        let sdata := nearby.filter (fun r => decide (r.station = s))
        if sdata.isEmpty then none else some (listMean (sdata.map Reading.value)))
      if 2 ≤ baseline_values.length then
        let baseline := listMean baseline_values
        let expected := baseline
        let deviation := |a.value - expected|
        let is_out := decide (SOUTHERN_VALIDATION_THRESHOLD < deviation)
        some ⟨a.time, a.value, expected, baseline, deviation, is_out, is_out⟩
      else none
    else none)

/-!  `historical_baseline.py` (`HistoricalBaselineProvider`, lookback_hours
defaulting to 72).  The recency weights use the real exponential
`np.exp(-Δt_hours)`, so the weighted average lives in `ℝ`. -/

/-- The lookback restriction of `get_historical_baseline`: southern readings
with `timestamp - 72 ≤ time < timestamp`. -/
def southernWindow (df : List Reading) (t : ℚ) : List Reading :=
  df.filter (fun r => decide (t - 72 ≤ r.time ∧ r.time < t ∧ r.station ∈ SOUTHERN_STATIONS))

/-- Largest timestamp of a group (`x['Tab_DateTime'].max()`); junk 0 on the
empty list, which never occurs in use. -/
def maxTimeOf : List Reading → ℚ
  | [] => 0
  | r :: rs => rs.foldl (fun m q => max m q.time) r.time

/-- The per-station aggregation of `get_historical_baseline`: for each
southern station with data in the window, its positionally last value
(`groupby('Station').last()`) and its largest timestamp. -/
def southernLastValues (df : List Reading) (t : ℚ) : List (Station × ℚ × ℚ) :=
  SOUTHERN_STATIONS.filterMap (fun s =>
    let sdata := (southernWindow df t).filter (fun r => decide (r.station = s))
    sdata.getLast?.map (fun lastR => (s, lastR.value, maxTimeOf sdata)))

/-- The decayed weighted average of `get_historical_baseline`:
`Σ lastᵢ·exp(-Δtᵢ) / Σ exp(-Δtᵢ)` with `Δtᵢ = t - maxTimeᵢ` in hours. -/
noncomputable def weightedHistAvg (t : ℚ) (groups : List (Station × ℚ × ℚ)) : ℝ :=
  (groups.map (fun g => (g.2.1 : ℝ) * Real.exp (-((t - g.2.2 : ℚ) : ℝ)))).sum
    / (groups.map (fun g => Real.exp (-((t - g.2.2 : ℚ) : ℝ)))).sum

/-- `HistoricalBaselineProvider.get_historical_baseline` (the required
columns are always present in this embedding). -/
noncomputable def get_historical_baseline (df : List Reading) (t : ℚ)
    (min_sources : ℕ) : Option ℝ × ℕ :=
  if (southernWindow df t).length < min_sources then (none, 0)
  else
    let groups := southernLastValues df t
    if groups.length < min_sources then (none, 0)
    else (some (weightedHistAvg t groups), groups.length)

/-- `HistoricalBaselineProvider.enhance_baseline_calculation`. -/
noncomputable def enhance_baseline_calculation (df : List Reading)
    (current_baseline : Option ℝ) (current_sources : ℕ) (t : ℚ)
    (min_sources : ℕ) : Option ℝ × ℕ :=
  match current_baseline with
  | some b =>
    if min_sources ≤ current_sources then (some b, current_sources)
    else
      match get_historical_baseline df t min_sources with
      | (some h, hs) => (some h, hs)
      | (none, _) => (some b, current_sources)
  | none =>
    match get_historical_baseline df t min_sources with
    | (some h, hs) => (some h, hs)
    | (none, _) => (none, 0)

/-!  `kalman_filter.py`.  `KalmanConfig` and the model specification
assembled by `build_model`; the numerical optimizer
(`UnobservedComponents.fit`) is an external statsmodels call, passed in as
a parameter of `fit`. -/

/-- `KalmanConfig` (defaults of the dataclass; the exogenous machinery is
unused by every caller in the repository). -/
structure KalmanConfig where
  use_level : Bool := true
  use_trend : Bool := true
  use_seasonal : Bool := true
  tidal_periods : List ℚ := [1242/100, 12, 2407/100, 2582/100]
deriving DecidableEq

/-- The component structure of the `UnobservedComponents` call assembled by
`build_model`: a level iff `use_level`, a (stochastic) trend only when
`use_trend` and not `use_level`, and one `(period, harmonics := 2)`
frequency-seasonal block per tidal period when `use_seasonal`. -/
structure ModelSpec where
  level : Bool
  trend : Bool
  stochastic_trend : Bool
  freq_seasonal : List (ℚ × ℕ)
deriving DecidableEq

/-- `KalmanFilterSeaLevel.build_model`. -/
def build_model (cfg : KalmanConfig) : ModelSpec :=
  let freq_seasonal := if cfg.use_seasonal then cfg.tidal_periods.map (fun p => (p, 2)) else []
  { level := cfg.use_level
    trend := cfg.use_trend && !cfg.use_level
    stochastic_trend := cfg.use_trend && !cfg.use_level
    freq_seasonal := freq_seasonal }

/-- `KalmanFilterSeaLevel.fit` on an hourly series: the body builds the
model and hands it to the statsmodels optimizer; there is no data-size
check, and the only failures are the optimizer's own, re-raised. -/
def fit {σ : Type} (optimizer : ModelSpec → List (ℚ × ℚ) → Except String σ)
    (cfg : KalmanConfig) (df : List (ℚ × ℚ)) : Except String σ :=
  optimizer (build_model cfg) df

/-- The data gate of `kalman_predict` in
`lambdas/get_predictions/main.py`: an empty or short (< 48 points) series
yields `None` before any model is built; otherwise the pipeline `run` is
executed on the data. -/
def kalman_predict_gate {α : Type} (df : List (ℚ × ℚ))
    (run : List (ℚ × ℚ) → Option α) : Option α :=
  if df.isEmpty ∨ df.length < 48 then none else run df

/-- One row of a forecast frame (`yhat`, `yhat_lower`, `yhat_upper`). -/
structure ForecastPoint where
  yhat : ℚ
  yhat_lower : ℚ
  yhat_upper : ℚ
deriving DecidableEq

/-- One row of the statsmodels `get_forecast` summary frame: a mean and a
standard error; the frame's confidence columns are
`mean ∓ c·se` for the normal quantile `c = z(1 - alpha/2) ≥ 0`. -/
structure LibForecastRow where
  mean : ℚ
  se : ℚ
deriving DecidableEq

/-- The summary frame of the statsmodels forecast object after the column
renaming done by `KalmanFilterSeaLevel.forecast`. -/
def summary_frame (c : ℚ) (rows : List LibForecastRow) : List ForecastPoint :=
  rows.map (fun r => ⟨r.mean, r.mean - c * r.se, r.mean + c * r.se⟩)

/-- `KalmanFilterSeaLevel.forecast`: the primary path renames the library's
summary-frame columns; when interval computation fails (`libCI = none`)
but the plain point forecast succeeds, a fixed ±0.1 m band is substituted;
when both fail the original exception is re-raised. -/
def forecast (libCI : Option (List LibForecastRow)) (c : ℚ)
    (fallbackMeans : Option (List ℚ)) : Except String (List ForecastPoint) :=
  match libCI with
  | some rows => .ok (summary_frame c rows)
  | none =>
    match fallbackMeans with
    | some ys => .ok (ys.map (fun y => ⟨y, y - 1/10, y + 1/10⟩))
    | none => .error "forecast failed"

/-!  `regime_switching.py`. -/

/-- `SeaLevelRegime` (enum values 0..3). -/
inductive SeaLevelRegime : Type
  | CALM
  | MODERATE
  | SURGE
  | STORM
deriving DecidableEq

/-- The regimes in the insertion order of `regime_configs` (also the order
of the `kalman_filters` dict). -/
def REGIMES : List SeaLevelRegime := [.CALM, .MODERATE, .SURGE, .STORM]

/-- `surge_threshold` of the four `RegimeConfig` entries. -/
def surge_threshold : SeaLevelRegime → ℚ
  | .CALM => 1/10
  | .MODERATE => 3/10
  | .SURGE => 1/2
  | .STORM => 1

/-- The fitted `hmm.GaussianHMM` as far as the transition matrix is
concerned (rows/columns indexed Calm, Moderate, Surge, Storm). -/
structure GaussianHMM where
  transmat : List (List ℚ)
deriving DecidableEq

/-- The hand-specified sticky transition matrix written into
`self.hmm_model.transmat_` by `train_hmm` (rows Calm, Moderate, Surge,
Storm). -/
def sticky_transmat : List (List ℚ) :=
  [[95/100, 4/100, 1/100, 0],
   [10/100, 80/100, 9/100, 1/100],
   [5/100, 15/100, 70/100, 10/100],
   [2/100, 8/100, 20/100, 70/100]]

/-- `RegimeSwitchingKalman.train_hmm`: whatever transition matrix the HMM
fit produced is overridden with the sticky matrix. -/
def train_hmm (fitted : GaussianHMM) : GaussianHMM :=
  { fitted with transmat := sticky_transmat }

/-- Scaling of the first successful regime forecast
(`weighted_forecast['yhat'] *= weight`, likewise both bounds). -/
def scalePoint (w : ℚ) (p : ForecastPoint) : ForecastPoint :=
  ⟨w * p.yhat, w * p.yhat_lower, w * p.yhat_upper⟩

/-- Accumulation of a further regime forecast
(`weighted_forecast['yhat'] += forecast['yhat'] * weight`, rows aligned
pointwise). -/
def addScaled (acc : List ForecastPoint) (w : ℚ) (f : List ForecastPoint) :
    List ForecastPoint :=
  acc.zipWith (fun a p =>
    ⟨a.yhat + w * p.yhat, a.yhat_lower + w * p.yhat_lower,
     a.yhat_upper + w * p.yhat_upper⟩) f

/-- The probability-weighted blending loop of
`RegimeSwitchingKalman.predict` over the successful per-regime forecasts
(in `REGIMES` order); `none` when every regime forecast failed. -/
def weightedEnsemble (probs : SeaLevelRegime → ℚ)
    (preds : List (SeaLevelRegime × List ForecastPoint)) :
    Option (List ForecastPoint) :=
  match preds with
  | [] => none
  | (r, f) :: rest =>
    some (rest.foldl (fun acc rf => addScaled acc (probs rf.1) rf.2)
      (f.map (scalePoint (probs r))))

/-- The result frame of `RegimeSwitchingKalman.predict`. -/
structure RSPrediction where
  points : List ForecastPoint
  regime : SeaLevelRegime
  regime_probability : ℚ
  surge_warning : Bool
  surge_level : ℚ
deriving DecidableEq

/-- `RegimeSwitchingKalman.predict` after regime detection:
`current_regime` and `probs` are the detection output, `forecasts r` the
outcome of regime `r`'s Kalman forecast (`none` = raised and skipped). -/
def predict (current_regime : SeaLevelRegime) (probs : SeaLevelRegime → ℚ)
    (forecasts : SeaLevelRegime → Option (List ForecastPoint)) :
    Option RSPrediction :=
  let preds := REGIMES.filterMap (fun r => (forecasts r).map (fun f => (r, f)))
  match weightedEnsemble probs preds with
  | none => none
  | some pts =>
    let isSurge : Bool := current_regime = .SURGE ∨ current_regime = .STORM
    some { points := pts
           regime := current_regime
           regime_probability := probs current_regime
           surge_warning := isSurge
           surge_level := if isSurge then surge_threshold current_regime else 0 }

/-!  Theorems. -/

lemma map_fst_filterMap_sublist (row : Row) (l : List Station) :
    ((l.filterMap (fun s => (row s).map (fun v => (s, v)))).map Prod.fst).Sublist l := by
  induction l with
  | nil => simp
  | cons a t ih =>
    rw [List.filterMap_cons]
    cases h : row a with
    | none => exact ih.cons a
    | some v => simpa using ih.cons₂ a

lemma nodup_fst_collectSouthern (row : Row) (ex : Option Station) :
    ((collectSouthern row ex).map Prod.fst).Nodup := by
  have hsub := map_fst_filterMap_sublist row
    (SOUTHERN_STATIONS.filter (fun s => decide (ex ≠ some s)))
  exact hsub.nodup (List.Nodup.filter _ (by decide))

/-- C1.  Cross-station baseline validation: after removal of an explicitly
excluded station, 0 or 1 candidates are returned as-is; with 2 or more, a
candidate is retained iff at least `max 1 ⌊n/2⌋` other candidates lie
within 5 cm of it; and exactly 2 candidates more than 5 cm apart are both
excluded, leaving an empty outcome. -/
theorem c1_validator (row : Row) (exclude : Option Station)
    (sd : List (Station × ℚ)) (hsd : sd = collectSouthern row exclude) :
    (sd.length ≤ 1 →
      validate_southern_stations row exclude = (sd.map Prod.fst, sd.map Prod.snd))
    ∧ (∀ s v, 2 ≤ sd.length → (s, v) ∈ sd →
        (s ∈ (validate_southern_stations row exclude).1
          ↔ max 1 (sd.length / 2) ≤ agreementCount sd (s, v)))
    ∧ (∀ a b u w, sd = [(a, u), (b, w)] →
        SOUTHERN_VALIDATION_THRESHOLD < |u - w| →
        validate_southern_stations row exclude = ([], [])) := by
  subst hsd
  have hnd := nodup_fst_collectSouthern row exclude
  refine ⟨?_, ?_, ?_⟩
  · intro hle
    simp only [validate_southern_stations, validateCandidates]
    rw [if_pos hle]
  · intro s v h2 hmem
    simp only [validate_southern_stations, validateCandidates]
    rw [if_neg (by omega)]
    constructor
    · intro hs
      obtain ⟨x, hmem', hfst⟩ := List.mem_map.mp hs
      obtain ⟨hmemsd, hpred⟩ := List.mem_filter.mp hmem'
      have hx : x = (s, v) :=
        List.inj_on_of_nodup_map hnd hmemsd hmem (by rw [hfst])
      rw [hx] at hpred
      simpa using hpred
    · intro hcount
      exact List.mem_map.mpr ⟨(s, v),
        List.mem_filter.mpr ⟨hmem, by simpa using hcount⟩, rfl⟩
  · intro a b u w hsd2 hgt
    have hab : a ≠ b := by
      rw [hsd2] at hnd
      simpa using hnd
    have h1 : ¬(|u - w| ≤ SOUTHERN_VALIDATION_THRESHOLD) := not_le.mpr hgt
    have h2 : ¬(|w - u| ≤ SOUTHERN_VALIDATION_THRESHOLD) := by
      rwa [abs_sub_comm]
    simp only [validate_southern_stations, validateCandidates, hsd2]
    rw [if_neg (by simp)]
    simp [agreementCount, List.filter_cons, hab, hab.symm, h1, h2]

lemma mid_dev (x y z : ℚ) (hxy : |x - y| ≤ SOUTHERN_VALIDATION_THRESHOLD)
    (hxz : SOUTHERN_VALIDATION_THRESHOLD < |x - z|)
    (hyz : SOUTHERN_VALIDATION_THRESHOLD < |y - z|) :
    SOUTHERN_VALIDATION_THRESHOLD < |z - (x + y) / 2| := by
  simp only [SOUTHERN_VALIDATION_THRESHOLD] at *
  obtain ⟨ha, hb⟩ := abs_le.mp hxy
  rcases lt_abs.mp hxz with h3 | h3 <;> rcases lt_abs.mp hyz with h4 | h4 <;>
    rcases abs_cases (z - (x + y) / 2) with ⟨he, h0⟩ | ⟨he, h0⟩ <;>
      rw [he] <;> linarith

lemma mem_collectSouthern (row : Row) (s : Station) (v : ℚ)
    (hS : s ∈ SOUTHERN_STATIONS) (hv : row s = some v) :
    (s, v) ∈ collectSouthern row none := by
  unfold collectSouthern
  exact List.mem_filterMap.mpr ⟨s, by simp [hS], by simp [hv]⟩


set_option maxHeartbeats 1000000 in
lemma validateCandidates3 (s1 s2 s3 : Station) (v1 v2 v3 : ℚ)
    (h12 : s1 ≠ s2) (h13 : s1 ≠ s3) (h23 : s2 ≠ s3) :
    validateCandidates [(s1, v1), (s2, v2), (s3, v3)]
      = ((if |v1 - v2| ≤ SOUTHERN_VALIDATION_THRESHOLD
              ∨ |v1 - v3| ≤ SOUTHERN_VALIDATION_THRESHOLD then [s1] else [])
          ++ (if |v1 - v2| ≤ SOUTHERN_VALIDATION_THRESHOLD
              ∨ |v2 - v3| ≤ SOUTHERN_VALIDATION_THRESHOLD then [s2] else [])
          ++ (if |v1 - v3| ≤ SOUTHERN_VALIDATION_THRESHOLD
              ∨ |v2 - v3| ≤ SOUTHERN_VALIDATION_THRESHOLD then [s3] else []),
         (if |v1 - v2| ≤ SOUTHERN_VALIDATION_THRESHOLD
              ∨ |v1 - v3| ≤ SOUTHERN_VALIDATION_THRESHOLD then [v1] else [])
          ++ (if |v1 - v2| ≤ SOUTHERN_VALIDATION_THRESHOLD
              ∨ |v2 - v3| ≤ SOUTHERN_VALIDATION_THRESHOLD then [v2] else [])
          ++ (if |v1 - v3| ≤ SOUTHERN_VALIDATION_THRESHOLD
              ∨ |v2 - v3| ≤ SOUTHERN_VALIDATION_THRESHOLD then [v3] else [])) := by
  have e1 : agreementCount [(s1, v1), (s2, v2), (s3, v3)] (s1, v1)
      = (if |v1 - v2| ≤ SOUTHERN_VALIDATION_THRESHOLD then 1 else 0)
        + (if |v1 - v3| ≤ SOUTHERN_VALIDATION_THRESHOLD then 1 else 0) := by
    by_cases hA : |v1 - v2| ≤ SOUTHERN_VALIDATION_THRESHOLD <;>
      by_cases hB : |v1 - v3| ≤ SOUTHERN_VALIDATION_THRESHOLD <;>
        simp [agreementCount, h12.symm, h13.symm, hA, hB]
  have e2 : agreementCount [(s1, v1), (s2, v2), (s3, v3)] (s2, v2)
      = (if |v1 - v2| ≤ SOUTHERN_VALIDATION_THRESHOLD then 1 else 0)
        + (if |v2 - v3| ≤ SOUTHERN_VALIDATION_THRESHOLD then 1 else 0) := by
    by_cases hA : |v1 - v2| ≤ SOUTHERN_VALIDATION_THRESHOLD <;>
      by_cases hC : |v2 - v3| ≤ SOUTHERN_VALIDATION_THRESHOLD <;>
        simp [agreementCount, h12, h23.symm, abs_sub_comm v2 v1, hA, hC]
  have e3 : agreementCount [(s1, v1), (s2, v2), (s3, v3)] (s3, v3)
      = (if |v1 - v3| ≤ SOUTHERN_VALIDATION_THRESHOLD then 1 else 0)
        + (if |v2 - v3| ≤ SOUTHERN_VALIDATION_THRESHOLD then 1 else 0) := by
    by_cases hB : |v1 - v3| ≤ SOUTHERN_VALIDATION_THRESHOLD <;>
      by_cases hC : |v2 - v3| ≤ SOUTHERN_VALIDATION_THRESHOLD <;>
        simp [agreementCount, h13, h23, abs_sub_comm v3 v1, abs_sub_comm v3 v2, hB, hC]
  by_cases hA : |v1 - v2| ≤ SOUTHERN_VALIDATION_THRESHOLD <;>
    by_cases hB : |v1 - v3| ≤ SOUTHERN_VALIDATION_THRESHOLD <;>
      by_cases hC : |v2 - v3| ≤ SOUTHERN_VALIDATION_THRESHOLD <;>
        simp [validateCandidates, e1, e2, e3, hA, hB, hC]

set_option maxHeartbeats 1000000 in
lemma validate3_excluded (s1 s2 s3 s : Station) (v1 v2 v3 v : ℚ)
    (h12 : s1 ≠ s2) (h13 : s1 ≠ s3) (h23 : s2 ≠ s3)
    (hmem : (s, v) ∈ [(s1, v1), (s2, v2), (s3, v3)])
    (hnot : s ∉ (validateCandidates [(s1, v1), (s2, v2), (s3, v3)]).1)
    (b : ℚ) (num : ℕ) (srcs : List Station)
    (hb : baselineFromValidation (validateCandidates [(s1, v1), (s2, v2), (s3, v3)])
      = (some b, num, srcs)) :
    SOUTHERN_VALIDATION_THRESHOLD < |v - b| := by
  rw [validateCandidates3 s1 s2 s3 v1 v2 v3 h12 h13 h23] at hnot hb
  simp only [List.mem_cons, List.mem_singleton, Prod.mk.injEq, List.not_mem_nil,
    or_false] at hmem
  by_cases hA : |v1 - v2| ≤ SOUTHERN_VALIDATION_THRESHOLD <;>
    by_cases hB : |v1 - v3| ≤ SOUTHERN_VALIDATION_THRESHOLD <;>
      by_cases hC : |v2 - v3| ≤ SOUTHERN_VALIDATION_THRESHOLD <;>
        simp [hA, hB, hC, baselineFromValidation, listMean] at hnot hb
  -- (A, B, C), (A, B, ¬C), (A, ¬B, C): every candidate kept
  · tauto
  · tauto
  · tauto
  -- (A, ¬B, ¬C): s3 excluded, baseline = (v1 + v2) / 2
  · rcases hmem with ⟨h1, h2⟩ | ⟨h1, h2⟩ | ⟨h1, h2⟩
    · exact absurd h1 hnot.1
    · exact absurd h1 hnot.2
    · subst h1 h2
      rw [← hb.1]
      exact mid_dev v1 v2 v hA (not_le.mp hB) (not_le.mp hC)
  -- (¬A, B, C): every candidate kept
  · tauto
  -- (¬A, B, ¬C): s2 excluded, baseline = (v1 + v3) / 2
  · rcases hmem with ⟨h1, h2⟩ | ⟨h1, h2⟩ | ⟨h1, h2⟩
    · exact absurd h1 hnot.1
    · subst h1 h2
      rw [← hb.1]
      refine mid_dev v1 v3 v hB (not_le.mp hA) ?_
      rw [abs_sub_comm]
      exact not_le.mp hC
    · exact absurd h1 hnot.2
  -- (¬A, ¬B, C): s1 excluded, baseline = (v2 + v3) / 2
  · rcases hmem with ⟨h1, h2⟩ | ⟨h1, h2⟩ | ⟨h1, h2⟩
    · subst h1 h2
      rw [← hb.1]
      refine mid_dev v2 v3 v hC ?_ ?_
      · rw [abs_sub_comm]; exact not_le.mp hA
      · rw [abs_sub_comm]; exact not_le.mp hB
    · exact absurd h1 hnot.1
    · exact absurd h1 hnot.2

lemma validateCandidates2 (t1 t2 : Station) (u1 u2 : ℚ) (hne : t1 ≠ t2) :
    validateCandidates [(t1, u1), (t2, u2)]
      = if |u1 - u2| ≤ SOUTHERN_VALIDATION_THRESHOLD
        then ([t1, t2], [u1, u2]) else ([], []) := by
  by_cases hagree : |u1 - u2| ≤ SOUTHERN_VALIDATION_THRESHOLD <;>
    simp [validateCandidates, agreementCount, hne, hne.symm, hagree, abs_sub_comm u2 u1]

lemma excluded_dev_row (row : Row) (s : Station) (hex : s ∈ excludedSouthern row)
    (b : ℚ) (num : ℕ) (srcs : List Station)
    (hcalc : calculate_southern_baseline row none = (some b, num, srcs))
    (v : ℚ) (hv : row s = some v) :
    SOUTHERN_VALIDATION_THRESHOLD < |v - b| := by
  obtain ⟨hS, hrest⟩ := List.mem_filter.mp hex
  have hnotvalid : s ∉ (validate_southern_stations row none).1 := by
    simp only [Bool.and_eq_true, decide_eq_true_eq] at hrest
    exact hrest.2
  have hmem : (s, v) ∈ collectSouthern row none := mem_collectSouthern row s v hS hv
  have hnd := nodup_fst_collectSouthern row none
  have hlen : (collectSouthern row none).length ≤ 3 := by
    have h1 := (map_fst_filterMap_sublist row
      (SOUTHERN_STATIONS.filter (fun t => decide ((none : Option Station) ≠ some t)))).length_le
    rw [List.length_map] at h1
    exact h1.trans (List.length_filter_le _ _)
  rw [validate_southern_stations] at hnotvalid
  rw [calculate_southern_baseline, validate_southern_stations] at hcalc
  rcases hshape : collectSouthern row none with _ | ⟨p, _ | ⟨q, _ | ⟨r, _ | ⟨w, tl⟩⟩⟩⟩
  · rw [hshape] at hmem
    simp at hmem
  · rw [hshape] at hmem hnotvalid
    obtain ⟨t1, u1⟩ := p
    simp only [validateCandidates] at hnotvalid
    rw [if_pos (by simp)] at hnotvalid
    simp only [List.mem_cons, List.not_mem_nil, or_false, Prod.mk.injEq] at hmem
    exact absurd (by simp [hmem.1]) hnotvalid
  · -- two candidates: either both agree (so s would have been kept) or both
    -- are excluded (so the baseline is absent); both contradict hypotheses
    rw [hshape] at hmem hnotvalid hcalc hnd
    obtain ⟨t1, u1⟩ := p
    obtain ⟨t2, u2⟩ := q
    have hne : t1 ≠ t2 := by simpa using hnd
    rw [validateCandidates2 t1 t2 u1 u2 hne] at hnotvalid hcalc
    simp only [List.mem_cons, List.not_mem_nil, or_false, Prod.mk.injEq] at hmem
    by_cases hagree : |u1 - u2| ≤ SOUTHERN_VALIDATION_THRESHOLD <;>
      simp [hagree, baselineFromValidation] at hnotvalid hcalc
    tauto
  · -- three candidates
    rw [hshape] at hmem hnotvalid hcalc hnd
    obtain ⟨t1, u1⟩ := p
    obtain ⟨t2, u2⟩ := q
    obtain ⟨t3, u3⟩ := r
    have h12 : t1 ≠ t2 := by simp at hnd; tauto
    have h13 : t1 ≠ t3 := by simp at hnd; tauto
    have h23 : t2 ≠ t3 := by simp at hnd; tauto
    exact validate3_excluded t1 t2 t3 s u1 u2 u3 v h12 h13 h23 hmem hnotvalid b num srcs hcalc
  · rw [hshape] at hlen
    simp at hlen

/-- C2.  Every OutlierRecord emitted by the outlier engine — on the
synchronized per-timestamp path and on the asynchronous Ashkelon path —
satisfies `is_outlier = (deviation > tolerance_used)` (the async path's
tolerance being the 5 cm validation threshold it compares against), and
`excluded_from_baseline = true` implies `is_outlier = true`. -/
theorem c2_outlier_invariant :
    (∀ (row : Row) (s : Station) (r : StationResult),
        process_row_with_validation row s = some r →
          (r.is_outlier = decide (r.tolerance < r.deviation))
          ∧ (r.excluded_from_baseline = true → r.is_outlier = true))
    ∧ (∀ (df : List Reading) (rec : AsyncRecord),
        rec ∈ detect_asynchronous_outliers df →
          (rec.is_outlier = decide (SOUTHERN_VALIDATION_THRESHOLD < rec.deviation))
          ∧ (rec.excluded_from_baseline = true → rec.is_outlier = true)) := by
  constructor
  · intro row s r hr
    unfold process_row_with_validation at hr
    rcases hcalc : calculate_southern_baseline row none with ⟨ob, num, srcs⟩
    rw [hcalc] at hr
    cases ob with
    | none => exact absurd hr (by simp)
    | some b =>
      dsimp only at hr
      by_cases hall : s ∈ ALL_STATIONS
      · rw [if_pos hall] at hr
        rcases hrow : row s with _ | actual
        · rw [hrow] at hr
          exact absurd hr (by simp)
        · rw [hrow] at hr
          dsimp only at hr
          by_cases hex : s ∈ excludedSouthern row
          · rw [if_pos hex] at hr
            obtain rfl : r = _ := (Option.some.inj hr).symm
            have hS : s ∈ SOUTHERN_STATIONS := (List.mem_filter.mp hex).1
            have htol : get_tolerance s = 3/100 := by
              rw [get_tolerance, if_pos hS]
            have hoff : STATION_OFFSETS s = 0 := by
              rcases (by simpa [SOUTHERN_STATIONS] using hS :
                s = Station.Yafo ∨ s = Station.Ashdod ∨ s = Station.Ashkelon)
                with h | h | h <;> rw [h] <;> rfl
            constructor
            · have hdev := excluded_dev_row row s hex b num srcs hcalc actual hrow
              have hlt : get_tolerance s < |actual - get_expected_value s b| := by
                rw [htol, get_expected_value, hoff, add_zero]
                have hth : (3/100 : ℚ) < SOUTHERN_VALIDATION_THRESHOLD := by
                  rw [SOUTHERN_VALIDATION_THRESHOLD]; norm_num
                linarith [hdev]
              simp [hlt]
            · intro
              rfl
          · rw [if_neg hex] at hr
            obtain rfl : r = _ := (Option.some.inj hr).symm
            exact ⟨rfl, fun h => absurd h (by simp)⟩
      · rw [if_neg hall] at hr
        exact absurd hr (by simp)
  · intro df rec hrec
    obtain ⟨a, _, hfa⟩ := List.mem_filterMap.mp hrec
    dsimp only at hfa
    split at hfa
    · split at hfa
      · obtain rfl : rec = _ := (Option.some.inj hfa).symm
        exact ⟨rfl, fun h => h⟩
      · exact absurd hfa (by simp)
    · exact absurd hfa (by simp)

/-- Two southern stations disagreeing by far more than 5 cm. -/
def disagreeRow : Row := fun s =>
  match s with
  | .Yafo => some 0
  | .Ashkelon => some 1
  | _ => none

/-- Witness for C1: with exactly two candidates 1 m apart, both are
excluded and the outcome is empty. -/
theorem c1_validator_witness :
    validate_southern_stations disagreeRow none = ([], []) := by
  refine (c1_validator disagreeRow none
    [(.Yafo, 0), (.Ashkelon, 1)] rfl).2.2 .Yafo .Ashkelon 0 1 rfl ?_
  rw [SOUTHERN_VALIDATION_THRESHOLD, abs_sub_comm]
  norm_num

/-- The spec's §8 example row: Yafo 0.320, Ashdod 0.318, Ashkelon 0.380,
Haifa 0.663, Acre 0.395. -/
def exampleRow : Row := fun s =>
  match s with
  | .Yafo => some (320/1000)
  | .Ashdod => some (318/1000)
  | .Ashkelon => some (380/1000)
  | .Haifa => some (663/1000)
  | .Acre => some (395/1000)
  | .Eilat => none

/-- The record the engine emits for Ashkelon on `exampleRow`. -/
def exampleAshkelonRecord : StationResult :=
  ⟨380/1000, 319/1000, 319/1000, 2, [.Yafo, .Ashdod], 61/1000, true, 3/100, true⟩

lemma exampleRow_validate :
    validate_southern_stations exampleRow none
      = ([.Yafo, .Ashdod], [320/1000, 318/1000]) := by
  have hc : collectSouthern exampleRow none
      = [(.Yafo, 320/1000), (.Ashdod, 318/1000), (.Ashkelon, 380/1000)] := rfl
  rw [validate_southern_stations, hc,
    validateCandidates3 _ _ _ _ _ _ (by decide) (by decide) (by decide)]
  rw [SOUTHERN_VALIDATION_THRESHOLD]
  norm_num [abs_le]

lemma exampleRow_process :
    process_row_with_validation exampleRow .Ashkelon = some exampleAshkelonRecord := by
  have hcalc : calculate_southern_baseline exampleRow none
      = (some (319/1000), 2, [.Yafo, .Ashdod]) := by
    rw [calculate_southern_baseline, exampleRow_validate]
    norm_num [baselineFromValidation, listMean]
  have hexc : Station.Ashkelon ∈ excludedSouthern exampleRow := by
    rw [excludedSouthern]
    refine List.mem_filter.mpr ⟨by decide, ?_⟩
    rw [exampleRow_validate]
    simp [exampleRow]
  rw [process_row_with_validation, hcalc]
  dsimp only
  rw [if_pos (by decide)]
  have hrow : exampleRow .Ashkelon = some (380/1000) := rfl
  rw [hrow]
  dsimp only
  rw [if_pos hexc]
  rw [exampleAshkelonRecord]
  norm_num [get_expected_value, STATION_OFFSETS, get_tolerance, abs_le]
  intro h
  exact absurd (by decide) h

/-- Witness for C2 at the §8 example: the Ashkelon record (excluded from
the baseline) satisfies both invariants. -/
theorem c2_outlier_invariant_witness :
    (exampleAshkelonRecord.is_outlier
      = decide (exampleAshkelonRecord.tolerance < exampleAshkelonRecord.deviation))
    ∧ (exampleAshkelonRecord.excluded_from_baseline = true →
        exampleAshkelonRecord.is_outlier = true) :=
  c2_outlier_invariant.1 exampleRow .Ashkelon exampleAshkelonRecord exampleRow_process

/-- C4.  Baseline from a validation outcome: 3 or more validated values →
median; 1 or 2 → arithmetic mean; 0 → absent with zero sources (and
`calculate_southern_baseline` is exactly this composition with the
validator). -/
theorem c4_baseline_rule :
    (∀ (row : Row) (exclude : Option Station),
        calculate_southern_baseline row exclude
          = baselineFromValidation (validate_southern_stations row exclude))
    ∧ (∀ (ss : List Station) (vs : List ℚ),
        (3 ≤ vs.length →
          baselineFromValidation (ss, vs) = (some (npMedian vs), vs.length, ss))
        ∧ ((vs.length = 1 ∨ vs.length = 2) →
          baselineFromValidation (ss, vs) = (some (listMean vs), vs.length, ss))
        ∧ (vs = [] → baselineFromValidation (ss, vs) = (none, 0, []))) := by
  refine ⟨fun row ex => rfl, fun ss vs => ⟨?_, ?_, ?_⟩⟩
  · intro h3
    have hne : vs.isEmpty = false := by
      cases vs
      · simp at h3
      · simp
    simp only [baselineFromValidation]
    rw [if_neg (by simp [hne]), if_pos h3]
  · intro h12
    have hne : vs.isEmpty = false := by
      cases vs
      · simp at h12
      · simp
    have h3 : ¬ 3 ≤ vs.length := by omega
    simp only [baselineFromValidation]
    rw [if_neg (by simp [hne]), if_neg h3]
  · intro h
    subst h
    rfl

/-- Witness for C4: three validated values yield their median, 2. -/
theorem c4_baseline_rule_witness :
    baselineFromValidation ([Station.Yafo], [1, 2, 3]) = (some 2, 3, [Station.Yafo]) := by
  rw [(c4_baseline_rule.2 [Station.Yafo] [1, 2, 3]).1 (by norm_num)]
  norm_num [npMedian, List.insertionSort, List.orderedInsert]

/-- C3's failing timestamp: only Haifa reports. -/
def haifaOnlyRow : Row := fun s =>
  match s with
  | .Haifa => some (663/1000)
  | _ => none

/-- Southern history one hour before the failing timestamp (t = 720 h),
well inside the 72 h lookback window. -/
def c3History : List Reading :=
  [⟨.Yafo, 719, 320/1000⟩, ⟨.Ashdod, 719, 318/1000⟩, ⟨.Ashkelon, 719, 315/1000⟩]

lemma c3_window : southernWindow c3History 720 = c3History := by
  rw [southernWindow, c3History]
  norm_num [SOUTHERN_STATIONS]

lemma c3_groups : southernLastValues c3History 720
    = [(.Yafo, 320/1000, 719), (.Ashdod, 318/1000, 719), (.Ashkelon, 315/1000, 719)] := by
  rw [southernLastValues, c3_window]
  rfl

/-- C3 (code bug).  At a timestamp with a station present but no southern
data, `process_row_with_validation` emits no record at all (the dict stays
empty) and never consults the historical provider, even though
`get_historical_baseline` succeeds on the available history with 3
sources: the fallback is simply not wired into the per-timestamp engine. -/
theorem c3_fallback_not_invoked :
    (haifaOnlyRow Station.Haifa).isSome = true
    ∧ (ALL_STATIONS.filterMap
        (fun s => (process_row_with_validation haifaOnlyRow s).map (fun r => (s, r)))) = []
    ∧ (get_historical_baseline c3History 720 2).2 = 3
    ∧ (get_historical_baseline c3History 720 2).1.isSome = true := by
  refine ⟨rfl, rfl, ?_, ?_⟩ <;>
    rw [get_historical_baseline, if_neg (by rw [c3_window]; decide)] <;>
    rw [if_neg (by rw [c3_groups]; norm_num)] <;>
    simp [c3_groups]

lemma window_mem_southern (df : List Reading) (t : ℚ) :
    ∀ r ∈ southernWindow df t, r.station ∈ SOUTHERN_STATIONS := by
  intro r hr
  have h2 := (List.mem_filter.mp hr).2
  simp only [decide_eq_true_eq] at h2
  exact h2.2.2

lemma length_partition3 (l : List Reading)
    (h : ∀ r ∈ l, r.station ∈ SOUTHERN_STATIONS) :
    l.length = (l.filter (fun r => decide (r.station = Station.Yafo))).length
      + (l.filter (fun r => decide (r.station = Station.Ashdod))).length
      + (l.filter (fun r => decide (r.station = Station.Ashkelon))).length := by
  induction l with
  | nil => rfl
  | cons a tl ih =>
    have ha := h a (List.mem_cons_self _ _)
    have ih2 := ih (fun r hr => h r (List.mem_cons_of_mem _ hr))
    rcases (by simpa [SOUTHERN_STATIONS] using ha :
        a.station = Station.Yafo ∨ a.station = Station.Ashdod
          ∨ a.station = Station.Ashkelon) with h1 | h1 | h1 <;>
      simp [List.filter_cons, h1, ih2] <;> omega

lemma one_le_length_of_getLast {α : Type} {l : List α} {x : α}
    (h : l.getLast? = some x) : 1 ≤ l.length := by
  cases l
  · simp at h
  · simp

lemma groups_le_window (df : List Reading) (t : ℚ) :
    (southernLastValues df t).length ≤ (southernWindow df t).length := by
  rw [length_partition3 (southernWindow df t) (window_mem_southern df t)]
  rw [southernLastValues, SOUTHERN_STATIONS]
  simp only [List.filterMap_cons, List.filterMap_nil]
  rcases hY : ((southernWindow df t).filter
      (fun r => decide (r.station = Station.Yafo))).getLast? with _ | lY <;>
    rcases hA : ((southernWindow df t).filter
        (fun r => decide (r.station = Station.Ashdod))).getLast? with _ | lA <;>
      rcases hK : ((southernWindow df t).filter
          (fun r => decide (r.station = Station.Ashkelon))).getLast? with _ | lK <;>
        simp only [hY, hA, hK, Option.map_none', Option.map_some',
          List.length_cons, List.length_nil] <;>
        (try have b1 := one_le_length_of_getLast hY) <;>
        (try have b2 := one_le_length_of_getLast hA) <;>
        (try have b3 := one_le_length_of_getLast hK) <;>
        omega

lemma foldl_max_le (rs : List Reading) : ∀ (init : ℚ),
    (init ≤ rs.foldl (fun m q => max m q.time) init)
    ∧ (∀ r ∈ rs, r.time ≤ rs.foldl (fun m q => max m q.time) init)
    ∧ (rs.foldl (fun m q => max m q.time) init = init
        ∨ ∃ r ∈ rs, rs.foldl (fun m q => max m q.time) init = r.time) := by
  induction rs with
  | nil => exact fun init => ⟨le_refl _, by simp, Or.inl rfl⟩
  | cons a tl ih =>
    intro init
    obtain ⟨h1, h2, h3⟩ := ih (max init a.time)
    simp only [List.foldl_cons]
    refine ⟨le_trans (le_max_left _ _) h1, ?_, ?_⟩
    · intro r hr
      rcases List.mem_cons.mp hr with h | h
      · rw [h]
        exact le_trans (le_max_right _ _) h1
      · exact h2 r h
    · rcases h3 with h | ⟨r, hr, he⟩
      · rcases max_choice init a.time with hm | hm
        · left
          rw [h, hm]
        · right
          exact ⟨a, List.mem_cons_self _ _, by rw [h, hm]⟩
      · right
        exact ⟨r, List.mem_cons_of_mem _ hr, he⟩

lemma pairwise_le_getLast {l : List Reading} {x : Reading}
    (hs : List.Pairwise (fun a b => a.time ≤ b.time) l)
    (hx : l.getLast? = some x) : ∀ y ∈ l, y.time ≤ x.time := by
  induction l with
  | nil => simp at hx
  | cons a tl ih =>
    have hxmem : x ∈ a :: tl := List.mem_of_mem_getLast? (by simp [hx])
    intro y hy
    rcases List.mem_cons.mp hy with h | h
    · rcases List.mem_cons.mp hxmem with h2 | h2
      · rw [h, h2]
      · rw [h]
        exact (List.pairwise_cons.mp hs).1 x h2
    · cases tl with
      | nil => simp at h
      | cons b tl2 =>
        rw [List.getLast?_cons_cons] at hx
        exact ih (List.pairwise_cons.mp hs).2 hx y h

lemma maxTimeOf_eq_getLast_time {l : List Reading} {x : Reading}
    (hs : List.Pairwise (fun a b => a.time ≤ b.time) l)
    (hx : l.getLast? = some x) : maxTimeOf l = x.time := by
  cases l with
  | nil => simp at hx
  | cons a tl =>
    obtain ⟨h1, h2, h3⟩ := foldl_max_le tl a.time
    have hle := pairwise_le_getLast hs hx
    apply le_antisymm
    · rcases h3 with h | ⟨r, hr, he⟩
      · rw [maxTimeOf, h]
        exact hle a (List.mem_cons_self _ _)
      · rw [maxTimeOf, he]
        exact hle r (List.mem_cons_of_mem _ hr)
    · have hxmem : x ∈ a :: tl := List.mem_of_mem_getLast? (by simp [hx])
      rcases List.mem_cons.mp hxmem with h | h
      · rw [maxTimeOf, h] at *
        exact h1
      · rw [maxTimeOf]
        exact h2 x h

/-- C5.  Historical baseline fallback: the provider restricts to southern
readings in `[t - 72, t)`; the result is absent iff fewer than
`min_sources` stations have a value there; otherwise it is the decayed
weighted average `Σ lastᵢ·exp(-Δtᵢ)/Σ exp(-Δtᵢ)` over each station's last
value (its most recent one when the history is time-ordered); and
`enhance_baseline_calculation` prefers a sufficiently-supported current
baseline, then the historical result, then any current baseline, else
absent. -/
theorem c5_historical :
    (∀ (df : List Reading) (t : ℚ) (ms : ℕ),
        ((get_historical_baseline df t ms).1 = none
          ↔ (southernLastValues df t).length < ms))
    ∧ (∀ (df : List Reading) (t : ℚ) (ms : ℕ),
        ms ≤ (southernLastValues df t).length →
          get_historical_baseline df t ms
            = (some (weightedHistAvg t (southernLastValues df t)),
               (southernLastValues df t).length))
    ∧ (∀ (df : List Reading) (t : ℚ),
        List.Pairwise (fun a b => a.time ≤ b.time) df →
        ∀ g ∈ southernLastValues df t,
          ∃ r ∈ southernWindow df t, r.station = g.1 ∧ r.value = g.2.1 ∧ r.time = g.2.2
            ∧ ∀ q ∈ southernWindow df t, q.station = g.1 → q.time ≤ r.time)
    ∧ (∀ (df : List Reading) (b : ℝ) (cs : ℕ) (t : ℚ) (ms : ℕ),
        (ms ≤ cs → enhance_baseline_calculation df (some b) cs t ms = (some b, cs))
        ∧ (cs < ms → ∀ (h : ℝ) (hs : ℕ), get_historical_baseline df t ms = (some h, hs) →
            enhance_baseline_calculation df (some b) cs t ms = (some h, hs))
        ∧ (cs < ms → (get_historical_baseline df t ms).1 = none →
            enhance_baseline_calculation df (some b) cs t ms = (some b, cs)))
    ∧ (∀ (df : List Reading) (cs : ℕ) (t : ℚ) (ms : ℕ),
        (∀ (h : ℝ) (hs : ℕ), get_historical_baseline df t ms = (some h, hs) →
          enhance_baseline_calculation df none cs t ms = (some h, hs))
        ∧ ((get_historical_baseline df t ms).1 = none →
          enhance_baseline_calculation df none cs t ms = (none, 0))) := by
  refine ⟨?_, ?_, ?_, ?_, ?_⟩
  · intro df t ms
    rw [get_historical_baseline]
    by_cases h1 : (southernWindow df t).length < ms
    · rw [if_pos h1]
      have h2 := groups_le_window df t
      simp only [true_iff]
      omega
    · rw [if_neg h1]
      by_cases h2 : (southernLastValues df t).length < ms
      · rw [if_pos h2]
        simp [h2]
      · rw [if_neg h2]
        simp [h2]
  · intro df t ms hms
    have h1 : ¬((southernWindow df t).length < ms) := by
      have := groups_le_window df t
      omega
    have h2 : ¬((southernLastValues df t).length < ms) := by omega
    rw [get_historical_baseline, if_neg h1, if_neg h2]
  · intro df t hsort g hg
    obtain ⟨s, hsS, heq⟩ := List.mem_filterMap.mp hg
    dsimp only at heq
    rcases hlast : ((southernWindow df t).filter
        (fun r => decide (r.station = s))).getLast? with _ | lastR
    · rw [hlast] at heq
      simp at heq
    · rw [hlast] at heq
      simp only [Option.map_some', Option.some.injEq] at heq
      subst heq
      have hsorted : ((southernWindow df t).filter
          (fun r => decide (r.station = s))).Pairwise
            (fun a b => a.time ≤ b.time) :=
        (hsort.filter _).filter _
      have hmem : lastR ∈ (southernWindow df t).filter
          (fun r => decide (r.station = s)) :=
        List.mem_of_mem_getLast? (by simp [hlast])
      have hmemW : lastR ∈ southernWindow df t := (List.mem_filter.mp hmem).1
      have hstation : lastR.station = s := by
        have h2 := (List.mem_filter.mp hmem).2
        simpa using h2
      refine ⟨lastR, hmemW, hstation, rfl,
        (maxTimeOf_eq_getLast_time hsorted hlast).symm, ?_⟩
      intro q hq hqs
      have hqsdata : q ∈ (southernWindow df t).filter
          (fun r => decide (r.station = s)) :=
        List.mem_filter.mpr ⟨hq, by simp [hqs]⟩
      exact pairwise_le_getLast hsorted hlast q hqsdata
  · intro df b cs t ms
    refine ⟨?_, ?_, ?_⟩
    · intro h
      rw [enhance_baseline_calculation]
      rw [if_pos h]
    · intro hlt h hs hg
      rw [enhance_baseline_calculation]
      rw [if_neg (by omega), hg]
    · intro hlt hnone
      rw [enhance_baseline_calculation]
      rw [if_neg (by omega)]
      rcases hgb : get_historical_baseline df t ms with ⟨ob, n⟩
      rw [hgb] at hnone
      dsimp only at hnone
      subst hnone
      rfl
  · intro df cs t ms
    constructor
    · intro h hs hg
      rw [enhance_baseline_calculation]
      rw [hg]
    · intro hnone
      rw [enhance_baseline_calculation]
      rcases hgb : get_historical_baseline df t ms with ⟨ob, n⟩
      rw [hgb] at hnone
      dsimp only at hnone
      subst hnone
      rfl

/-- Sorted two-station history for the C5 witness. -/
def c5History : List Reading := [⟨.Yafo, 10, 1/2⟩, ⟨.Ashdod, 11, 1/2⟩]

/-- Witness for C5: a well-supported current baseline is kept as-is, and
the absence criterion is the station count. -/
theorem c5_historical_witness :
    enhance_baseline_calculation c5History (some 1) 2 12 2 = (some 1, 2)
    ∧ ((get_historical_baseline c5History 12 3).1 = none
        ↔ (southernLastValues c5History 12).length < 3) :=
  ⟨(c5_historical.2.2.2.1 c5History 1 2 12 2).1 (by norm_num),
   c5_historical.1 c5History 12 3⟩

/-- An optimizer stub that always converges (the numerical behaviour of
statsmodels is external to the repository). -/
def okOptimizer : ModelSpec → List (ℚ × ℚ) → Except String Unit := fun _ _ => .ok ()

/-- A 3-point hourly series. -/
def threePointSeries : List (ℚ × ℚ) := [(0, 1/2), (1, 1/2), (2, 1/2)]

/-- Counterexample to C6 as stated: `fit` contains no minimum-data check,
so on a 3-point series (< 48) it does not fail with an insufficient-data
error — with a converging optimizer it returns a fitted model. -/
theorem c6_counterexample :
    threePointSeries.length < 48
    ∧ fit okOptimizer {} threePointSeries = .ok () := ⟨by decide, rfl⟩

/-- C6 amended: the 48-point minimum is enforced by the caller
`kalman_predict`, which yields `None` (no forecast, no exception) for any
series shorter than 48 points before fitting; `fit` itself performs no
data-size check and simply delegates to the optimizer. -/
theorem c6_min_data_guard :
    (∀ {α : Type} (run : List (ℚ × ℚ) → Option α) (df : List (ℚ × ℚ)),
        df.length < 48 → kalman_predict_gate df run = none)
    ∧ (∀ {σ : Type} (optimizer : ModelSpec → List (ℚ × ℚ) → Except String σ)
        (cfg : KalmanConfig) (df : List (ℚ × ℚ)),
        fit optimizer cfg df = optimizer (build_model cfg) df) := by
  constructor
  · intro α run df h
    rw [kalman_predict_gate, if_pos (Or.inr h)]
  · intro σ opt cfg df
    rfl

/-- 47 points: one short of the minimum. -/
def fortySevenPoints : List (ℚ × ℚ) := List.replicate 47 (0, 0)

/-- Witness for the amended C6: 47 points are gated off. -/
theorem c6_min_data_guard_witness :
    kalman_predict_gate fortySevenPoints (fun df => some df.length) = none :=
  c6_min_data_guard.1 (fun df => some df.length) fortySevenPoints (by decide)

/-- C7.  Every forecast point returned satisfies
`yhat_lower ≤ yhat ≤ yhat_upper`: on the primary path because the library
interval is `mean ∓ c·se` with `c ≥ 0` and `se ≥ 0`, and on the degraded
path because the fixed ±0.1 band brackets the point forecast. -/
theorem c7_forecast_bounds (libCI : Option (List LibForecastRow)) (c : ℚ)
    (fb : Option (List ℚ)) (pts : List ForecastPoint)
    (hc : 0 ≤ c)
    (hse : ∀ rows, libCI = some rows → ∀ r ∈ rows, 0 ≤ r.se)
    (hok : forecast libCI c fb = .ok pts) :
    ∀ p ∈ pts, p.yhat_lower ≤ p.yhat ∧ p.yhat ≤ p.yhat_upper := by
  cases libCI with
  | some rows =>
    rw [forecast] at hok
    obtain rfl : pts = _ := (Except.ok.inj hok).symm
    intro p hp
    obtain ⟨r, hr, rfl⟩ := List.mem_map.mp hp
    have hse2 := hse rows rfl r hr
    have hprod := mul_nonneg hc hse2
    constructor
    · simp only
      linarith
    · simp only
      linarith
  | none =>
    cases fb with
    | some ys =>
      rw [forecast] at hok
      obtain rfl : pts = _ := (Except.ok.inj hok).symm
      intro p hp
      obtain ⟨y, hy, rfl⟩ := List.mem_map.mp hp
      constructor
      · simp only
        norm_num
      · simp only
        norm_num
    | none =>
      rw [forecast] at hok
      exact absurd hok (by simp)

/-- Witness for C7 at one library row (mean 1, se 1/4, c = 2). -/
theorem c7_forecast_bounds_witness :
    ((⟨1, 1/2, 3/2⟩ : ForecastPoint).yhat_lower ≤ (⟨1, 1/2, 3/2⟩ : ForecastPoint).yhat)
    ∧ ((⟨1, 1/2, 3/2⟩ : ForecastPoint).yhat ≤ (⟨1, 1/2, 3/2⟩ : ForecastPoint).yhat_upper) := by
  refine c7_forecast_bounds (some [⟨1, 1/4⟩]) 2 none [⟨1, 1/2, 3/2⟩]
    (by norm_num) ?_ ?_ ⟨1, 1/2, 3/2⟩ (by simp)
  · intro rows hr r hrr
    injection hr with h2
    subst h2
    rcases List.mem_singleton.mp hrr with rfl
    norm_num
  · rw [forecast]
    simp only [summary_frame, List.map_cons, List.map_nil, Except.ok.injEq,
      List.cons.injEq, and_true]
    norm_num

/-- Counterexample to C8 as stated: in the trained sticky matrix the
Surge→Storm entry is 0.10 (not 0.20), and it is lower — not higher — than
the reverse Storm→Surge entry (0.20). -/
theorem c8_counterexample :
    ¬((((train_hmm ⟨[]⟩).transmat.getD 2 []).getD 3 0 = 20/100)
      ∧ (((train_hmm ⟨[]⟩).transmat.getD 3 []).getD 2 0
          < ((train_hmm ⟨[]⟩).transmat.getD 2 []).getD 3 0)) := by
  rintro ⟨h1, -⟩
  rw [train_hmm] at h1
  norm_num [sticky_transmat] at h1

/-- C8 amended: after training, the transition matrix equals the
hand-specified sticky matrix; every diagonal entry is at least 0.70; the
Storm→Surge entry is 0.20, strictly higher than the reverse Surge→Storm
entry 0.10. -/
theorem c8_sticky_matrix (m : GaussianHMM) :
    (train_hmm m).transmat = sticky_transmat
    ∧ (∀ i, i < 4 → (70/100 : ℚ) ≤ (((train_hmm m).transmat.getD i []).getD i 0))
    ∧ (((train_hmm m).transmat.getD 3 []).getD 2 0 = 20/100)
    ∧ (((train_hmm m).transmat.getD 2 []).getD 3 0 = 10/100)
    ∧ (((train_hmm m).transmat.getD 2 []).getD 3 0
        < ((train_hmm m).transmat.getD 3 []).getD 2 0) := by
  refine ⟨rfl, ?_, by norm_num [train_hmm, sticky_transmat],
    by norm_num [train_hmm, sticky_transmat], by norm_num [train_hmm, sticky_transmat]⟩
  intro i hi
  interval_cases i <;> norm_num [train_hmm, sticky_transmat]

/-- Witness for the amended C8: the Calm diagonal entry is ≥ 0.70. -/
theorem c8_sticky_matrix_witness :
    (70/100 : ℚ) ≤ (((train_hmm ⟨[]⟩).transmat.getD 0 []).getD 0 0) :=
  (c8_sticky_matrix ⟨[]⟩).2.1 0 (by norm_num)

lemma map_scalePoint_one (l : List ForecastPoint) : l.map (scalePoint 1) = l := by
  induction l with
  | nil => rfl
  | cons a tl ih => simp [scalePoint, ih]

lemma addScaled_zero (acc : List ForecastPoint) :
    ∀ (f : List ForecastPoint), acc.length ≤ f.length → addScaled acc 0 f = acc := by
  induction acc with
  | nil => intro f _; rfl
  | cons a tl ih =>
    intro f hlen
    cases f with
    | nil => simp at hlen
    | cons b ftl =>
      have htl := ih ftl (by simpa using hlen)
      simp only [addScaled, List.zipWith_cons_cons, zero_mul, add_zero] at htl ⊢
      rw [htl]

/-- C9.  Regime-switching ensemble identity: with detection output
"certain Calm" (probability vector `[1,0,0,0]`) and all four per-regime
forecasts succeeding with equal horizons, `predict` returns exactly the
Calm model's forecast with `surge_warning = false`; and in general
`surge_warning` is true iff the dominant regime is Surge or Storm. -/
theorem c9_regime_ensemble :
    (∀ (probs : SeaLevelRegime → ℚ) (f : SeaLevelRegime → List ForecastPoint),
        probs .CALM = 1 → probs .MODERATE = 0 → probs .SURGE = 0 → probs .STORM = 0 →
        (∀ r, (f r).length = (f .CALM).length) →
        predict .CALM probs (fun r => some (f r))
          = some ⟨f .CALM, .CALM, 1, false, 0⟩)
    ∧ (∀ (cr : SeaLevelRegime) (probs : SeaLevelRegime → ℚ)
        (forecasts : SeaLevelRegime → Option (List ForecastPoint)) (res : RSPrediction),
        predict cr probs forecasts = some res →
          (res.surge_warning = true ↔ (cr = .SURGE ∨ cr = .STORM))) := by
  constructor
  · intro probs f h1 h2 h3 h4 hlen
    rw [predict]
    have hpreds : REGIMES.filterMap (fun r => (some (f r)).map (fun ff => (r, ff)))
        = [(SeaLevelRegime.CALM, f .CALM), (.MODERATE, f .MODERATE),
           (.SURGE, f .SURGE), (.STORM, f .STORM)] := by
      simp [REGIMES]
    dsimp only
    rw [hpreds, weightedEnsemble]
    simp only [List.foldl_cons, List.foldl_nil, h1, h2, h3, h4, map_scalePoint_one]
    rw [addScaled_zero _ _ (hlen .MODERATE).symm.le,
      addScaled_zero _ _ (hlen .SURGE).symm.le,
      addScaled_zero _ _ (hlen .STORM).symm.le]
    rfl
  · intro cr probs forecasts res hres
    rw [predict] at hres
    rcases hwe : weightedEnsemble probs
        (REGIMES.filterMap (fun r => (forecasts r).map (fun ff => (r, ff))))
      with _ | pts
    · rw [hwe] at hres
      exact absurd hres (by simp)
    · rw [hwe] at hres
      obtain rfl : res = _ := (Option.some.inj hres).symm
      simp

/-- Certain-Calm probability vector. -/
def certainCalm : SeaLevelRegime → ℚ := fun r => if r = .CALM then 1 else 0

/-- One-point forecast used by every regime in the C9 witness. -/
def constForecasts : SeaLevelRegime → List ForecastPoint := fun _ => [⟨1, 0, 2⟩]

/-- Witness for C9 with probabilities `[1,0,0,0]` and four identical
one-point forecasts. -/
theorem c9_regime_ensemble_witness :
    predict .CALM certainCalm (fun r => some (constForecasts r))
      = some ⟨[⟨1, 0, 2⟩], .CALM, 1, false, 0⟩ :=
  c9_regime_ensemble.1 certainCalm constForecasts rfl rfl rfl rfl (fun _ => rfl)

/-- The configuration built by `kalman_predict`
(`lambdas/get_predictions/main.py`). -/
def predEndpointConfig : KalmanConfig :=
  { use_level := true, use_trend := true, use_seasonal := true,
    tidal_periods := [1242/100, 12, 2407/100, 2582/100] }

/-- The configuration built for every regime by
`RegimeSwitchingKalman.initialize_kalman_filters`. -/
def regimeFilterConfig : KalmanConfig :=
  { use_level := true, use_trend := true, use_seasonal := true,
    tidal_periods := [1242/100, 12, 2407/100, 2582/100] }

/-- C10.  With `use_level = true` (the dataclass default and the setting of
both the prediction endpoint and every per-regime filter), `build_model`
never adds a trend component; a trend appears exactly when
`use_trend = true` and `use_level = false`; so every model actually built
has a level and the four 2-harmonic tidal blocks but no trend. -/
theorem c10_no_trend :
    (∀ cfg : KalmanConfig, cfg.use_level = true → (build_model cfg).trend = false)
    ∧ (∀ cfg : KalmanConfig,
        ((build_model cfg).trend = true ↔ (cfg.use_trend = true ∧ cfg.use_level = false)))
    ∧ (({} : KalmanConfig).use_level = true ∧ ({} : KalmanConfig).use_trend = true)
    ∧ ((build_model predEndpointConfig).level = true
      ∧ (build_model predEndpointConfig).trend = false
      ∧ (build_model predEndpointConfig).freq_seasonal
          = [(1242/100, 2), (12, 2), (2407/100, 2), (2582/100, 2)])
    ∧ ((build_model regimeFilterConfig).level = true
      ∧ (build_model regimeFilterConfig).trend = false
      ∧ (build_model regimeFilterConfig).freq_seasonal
          = [(1242/100, 2), (12, 2), (2407/100, 2), (2582/100, 2)]) := by
  refine ⟨?_, ?_, ⟨rfl, rfl⟩, ⟨rfl, rfl, rfl⟩, ⟨rfl, rfl, rfl⟩⟩
  · intro cfg h
    simp [build_model, h]
  · intro cfg
    simp [build_model, Bool.and_eq_true, Bool.not_eq_true']

/-- Witness for C10: the endpoint configuration yields no trend. -/
theorem c10_no_trend_witness :
    (build_model predEndpointConfig).trend = false :=
  c10_no_trend.1 predEndpointConfig rfl
